import Mathlib

/-!
# go-jp-text-ripper: the command-line driver and the discard writer

A shallow embedding of `ripper/run.go` and `writer/dummy.go`.

* Go's `error` is `Option String` (`none` is `nil`).
* Go's `int` and `time.Duration` are 64-bit: integers are `Int` with an
  explicit wrap to the signed 64-bit range.
* The package-level flag variables are the record `Flags`.
* The `Ripper` type, its constructors and its methods are declared in files of
  the package that are not part of this development.  The driver's use of them
  is recorded as the list of calls it makes (`Call`), and what the fallible
  calls return is a parameter (`Env`).
-/

namespace ripper

/-! ## Flags (`run.go`, lines 17-28 and 75-111) -/

/-- The package-level flag variables of `run.go`.  The defaults are the
initial values of the variables (and the defaults given to the flag package).
The field `show_` is the variable `show`, a reserved word here. -/
structure Flags where
  input : String := ""
  output : String := ""
  column : String := ""
  dic : String := ""
  quote : String := ""
  replace : Bool := false
  show_ : Bool := false
  debug : Bool := false
  progress : Int := 30
deriving DecidableEq, Repr

/-- `parseFlags`: binds the nine flags and calls `flag.Parse()`.  The command
line parser is the standard library's; its result (the values it stores in the
variables) is the argument `parsed`.  The function always returns `nil`. -/
def parseFlags (parsed : Flags) : Flags × Option String :=
  (parsed, none)

/-- `checkFlags`: the `switch` of lines 101-108, cases tried in order. -/
def checkFlags (f : Flags) : Option String :=
  if f.input = "" then
    some "no input file\nuse -input <input file path>\n"
  else if f.output = "" ∧ ¬ f.show_ ∧ ¬ f.debug then
    some "no output file\nuse -output <output file path>\n"
  else if f.column = "" then
    some "no column name\nuse -column <column name>\n"
  else
    none

/-- `InitFlags`: `parseFlags`, then `checkFlags` when parsing gave no error. -/
def InitFlags (parsed : Flags) : Flags × Option String :=
  match parseFlags parsed with
  | (f, some err) => (f, some err)
  | (f, none) => (f, checkFlags f)

/-! ## Go integers and the ticker -/

/-- The signed 64-bit value a Go `int` or `int64` operation leaves: the
mathematical result reduced modulo `2^64` into `[-2^63, 2^63)`. -/
def wrap64 (x : Int) : Int :=
  (x + 2 ^ 63) % 2 ^ 64 - 2 ^ 63

/-- The values of a Go `int`. -/
def isInt64 (x : Int) : Prop :=
  -(2 ^ 63) ≤ x ∧ x < 2 ^ 63

instance (x : Int) : Decidable (isInt64 x) := by
  unfold isInt64; infer_instance

/-- Go's `a - b` on `int`. -/
def goSub (a b : Int) : Int :=
  wrap64 (a - b)

/-- Go's `a * b` on `int64`. -/
def goMul (a b : Int) : Int :=
  wrap64 (a * b)

/-- Go's `a / b` on `int`: the quotient truncated toward zero, wrapped (the
one overflow is the least value divided by `-1`); `none` is the run-time panic
"integer divide by zero". -/
def goDiv (a b : Int) : Option Int :=
  if b = 0 then none else some (wrap64 (Int.tdiv a b))

/-- The constant `time.Second`, in nanoseconds. -/
def timeSecond : Int := 1000000000

/-- The standard library's `time.Tick(d)`: the nil channel (`none`) when
`d <= 0`, otherwise the channel of a ticker of period `d`. -/
def timeTick (d : Int) : Option Int :=
  if d ≤ 0 then none else some d

/-! ## The calls the driver makes -/

/-- A `*PreFilter`; the type is declared elsewhere in the package and only the
identity of the pointer matters here. -/
structure PreFilter where
  addr : Nat
deriving DecidableEq, Repr

/-- A `*Plugin`, as for `PreFilter`. -/
structure Plugin where
  addr : Nat
deriving DecidableEq, Repr

/-- A `*PostFilter`, as for `PreFilter`. -/
structure PostFilter where
  addr : Nat
deriving DecidableEq, Repr

/-- The package variables `DefaultPlugins`, `DefaultPreFilters` and
`DefaultPostFilters` (lines 11-15). -/
structure Defaults where
  DefaultPlugins : List Plugin := []
  DefaultPreFilters : List PreFilter := []
  DefaultPostFilters : List PostFilter := []
deriving DecidableEq, Repr

/-- The two fields of `Ripper` the driver assigns. -/
structure Ripper where
  ShowResult : Bool := false
  ShowDebug : Bool := false
deriving DecidableEq, Repr

/-- What the driver does to the outside, in program order: the constructor and
method calls on the `Ripper`, the `go` statement of `Run`, and the lines it
prints. -/
inductive Call where
  | NewWithReaderFromFile (input column : String)
  | NewFromFiles (input output column : String)
  | SetQuoteColumns (columns : List String)
  | SetDictionary (dic : String)
  | AddPreFilter (p : PreFilter)
  | AddPlugin (p : Plugin)
  | AddPostFilter (p : PostFilter)
  | WriteHeaderWithReplace
  | WriteHeader
  | ReadAndWriteLines
  | Close
  | GoMonitor
  | Println (line : String)
deriving DecidableEq, Repr

/-- What the calls into the absent part of the package return in one run: the
`Ripper` and the error of the constructor, and the errors of `SetDictionary`,
of the header write and of `ReadAndWriteLines`.  Each is called at most once
in a run. -/
structure Env where
  newRipper : Ripper := {}
  newErr : Option String := none
  dicErr : Option String := none
  headerErr : Option String := none
  runErr : Option String := none
deriving DecidableEq, Repr

/-- The standard library's `strings.Split(s, sep)`. -/
def stringsSplit (s sep : String) : List String :=
  s.splitOn sep

/-- Lines 117-123 of `newDefaultRipper`: the constructor called, by the
`switch` on `output`. -/
def constructorCall (f : Flags) : Call :=
  if f.output = "" then Call.NewWithReaderFromFile f.input f.column
  else Call.NewFromFiles f.input f.output f.column

/-- Lines 129-134: the output options set on the `Ripper`. -/
def setOutputOptions (f : Flags) (r : Ripper) : Ripper :=
  let r := if f.show_ then { r with ShowResult := true } else r
  if f.debug then { r with ShowDebug := true } else r

/-- Lines 135-137: the call of `SetQuoteColumns`, made when `quote` is not
empty. -/
def quoteCalls (f : Flags) : List Call :=
  if f.quote ≠ "" then [Call.SetQuoteColumns (stringsSplit f.quote ",")] else []

/-- Lines 140-141: the call of `SetDictionary`, made when `dic` is not empty. -/
def dictionaryCalls (f : Flags) : List Call :=
  if f.dic ≠ "" then [Call.SetDictionary f.dic] else []

/-- Lines 148-156: the three `range` loops, one call for each element. -/
def registrationCalls (d : Defaults) : List Call :=
  d.DefaultPreFilters.map Call.AddPreFilter ++
  d.DefaultPlugins.map Call.AddPlugin ++
  d.DefaultPostFilters.map Call.AddPostFilter

/-- Lines 158-163: the header call, by the `switch` on `replace`. -/
def headerCall (f : Flags) : Call :=
  if f.replace then Call.WriteHeaderWithReplace else Call.WriteHeader

/-- `newDefaultRipper` (lines 113-170): the calls made, and the pair
`(*Ripper, error)` returned, `none` being `nil` in both places. -/
def newDefaultRipper (f : Flags) (d : Defaults) (e : Env) :
    List Call × Option Ripper × Option String :=
  match e.newErr with
  | some err => ([constructorCall f], none, some err)
  | none =>
    let r := setOutputOptions f e.newRipper
    match (if f.dic ≠ "" then e.dicErr else none) with
    | some err =>
      (constructorCall f :: quoteCalls f ++ dictionaryCalls f ++ [Call.Close], none, some err)
    | none =>
      match e.headerErr with
      | some err =>
        (constructorCall f :: quoteCalls f ++ dictionaryCalls f ++ registrationCalls d ++
          [headerCall f, Call.Close], none, some err)
      | none =>
        (constructorCall f :: quoteCalls f ++ dictionaryCalls f ++ registrationCalls d ++
          [headerCall f], some r, none)

/-- `Run` (lines 48-73), the calls of the calling goroutine: it starts the
monitor goroutine, prints, calls `ReadAndWriteLines` and prints the error or
the closing line. -/
def Run (e : Env) : List Call :=
  [Call.GoMonitor, Call.Println "read and write lines...", Call.ReadAndWriteLines] ++
    match e.runErr with
    | some err => [Call.Println err]
    | none => [Call.Println "finish process"]

/-- `AutoRun` (lines 30-46): the calls made until it returns.  The deferred
`r.Close()` runs when the function returns after `Run`. -/
def AutoRun (parsed : Flags) (d : Defaults) (e : Env) : List Call :=
  match InitFlags parsed with
  | (_, some err) => [Call.Println err]
  | (f, none) =>
    match newDefaultRipper f d e with
    | (calls, _, some err) => calls ++ [Call.Println err]
    | (calls, _, none) => calls ++ Run e ++ [Call.Close]

/-- Whether a call is one of the two constructors of `Ripper`. -/
def Call.isConstructor : Call → Bool
  | Call.NewWithReaderFromFile _ _ => true
  | Call.NewFromFiles _ _ _ => true
  | _ => false

/-- Whether a call is `SetDictionary`. -/
def Call.isSetDictionary : Call → Bool
  | Call.SetDictionary _ => true
  | _ => false

/-- Whether a call registers a pre-filter, a plugin or a post-filter. -/
def Call.isRegistration : Call → Bool
  | Call.AddPreFilter _ => true
  | Call.AddPlugin _ => true
  | Call.AddPostFilter _ => true
  | _ => false

/-- Whether a call is `SetQuoteColumns`. -/
def Call.isSetQuoteColumns : Call → Bool
  | Call.SetQuoteColumns _ => true
  | _ => false

/-- Whether a call writes the header, in either mode. -/
def Call.isHeaderWrite : Call → Bool
  | Call.WriteHeaderWithReplace => true
  | Call.WriteHeader => true
  | _ => false

/-! ## The progress monitor (lines 51-62) -/

/-- What one tick computes: the position read, the value of `cur-prev`, and
the quotient.  The line printed shows `line` and `tps` (and the wall-clock
time, which is not modelled). -/
structure Sample where
  line : Int
  delta : Int
  tps : Int
deriving DecidableEq, Repr

/-- One pass through the body of `case <-tick:` (lines 57-59), from the value
`prev` with `cur` the value `GetCurrentPosition` returned: the sample and the
new value of `prev`, or `none` when the division panics. -/
def monitorTick (progress prev cur : Int) : Option (Sample × Int) :=
  match goDiv (goSub cur prev) progress with
  | none => none
  | some tps => some ({ line := cur, delta := goSub cur prev, tps := tps }, cur)

/-- The loop of the monitor over the ticks it receives, `positions` being the
values `GetCurrentPosition` returns at them: the samples in order and the last
value of `prev`. -/
def monitorLoop (progress : Int) : Int → List Int → Option (List Sample × Int)
  | prev, [] => some ([], prev)
  | prev, cur :: rest =>
    match monitorTick progress prev cur with
    | none => none
    | some (s, prev1) =>
      match monitorLoop progress prev1 rest with
      | none => none
      | some (ss, last) => some (s :: ss, last)

/-- Where the goroutine calling `Run` stands. -/
inductive MainPc where
  | entry
  | spawned
  | announced
  | processing
  | processed
  | returned
deriving DecidableEq, Repr

/-- Where the monitor goroutine stands: not yet started by the `go`
statement; started, its body not yet run; at the `select` with its channel
(`none` is the nil channel) and `prev`; or stopped by the division panic.
The loop has no other exit. -/
inductive Monitor where
  | absent
  | created
  | waiting (tick : Option Int) (prev : Int)
  | crashed
deriving DecidableEq, Repr

/-- The state of an execution of `Run`: both goroutines, the calls made by the
caller's goroutine and the samples the monitor printed. -/
structure RunState where
  pc : MainPc := MainPc.entry
  monitor : Monitor := Monitor.absent
  calls : List Call := []
  printed : List Sample := []
deriving DecidableEq, Repr

/-- A scheduling choice: the caller's goroutine takes its next step, or the
monitor goroutine does, `cur` being what `GetCurrentPosition` returns if that
step is a tick. -/
inductive RunEvent where
  | main
  | monitor (cur : Int)
deriving DecidableEq, Repr

/-- The next step of the goroutine calling `Run`. -/
def mainStep (e : Env) (s : RunState) : RunState :=
  match s.pc with
  | MainPc.entry =>
    { s with pc := MainPc.spawned, monitor := Monitor.created,
             calls := s.calls ++ [Call.GoMonitor] }
  | MainPc.spawned =>
    { s with pc := MainPc.announced,
             calls := s.calls ++ [Call.Println "read and write lines..."] }
  | MainPc.announced =>
    { s with pc := MainPc.processing, calls := s.calls ++ [Call.ReadAndWriteLines] }
  | MainPc.processing =>
    { s with pc := MainPc.processed }
  | MainPc.processed =>
    match e.runErr with
    | some err => { s with pc := MainPc.returned, calls := s.calls ++ [Call.Println err] }
    | none =>
      { s with pc := MainPc.returned, calls := s.calls ++ [Call.Println "finish process"] }
  | MainPc.returned => s

/-- The next step of the monitor goroutine.  Its first step runs lines 52-53;
at the `select` a nil channel never delivers, and a tick runs the body. -/
def monitorStep (progress cur : Int) (s : RunState) : RunState :=
  match s.monitor with
  | Monitor.absent => s
  | Monitor.created =>
    { s with monitor := Monitor.waiting (timeTick (goMul progress timeSecond)) 0 }
  | Monitor.waiting none _ => s
  | Monitor.waiting (some d) prev =>
    match monitorTick progress prev cur with
    | none => { s with monitor := Monitor.crashed }
    | some (sample, prev1) =>
      { s with monitor := Monitor.waiting (some d) prev1,
               printed := s.printed ++ [sample] }
  | Monitor.crashed => s

/-- One step of the execution; after a panic the process is gone and nothing
steps. -/
def RunState.step (progress : Int) (e : Env) (s : RunState) : RunEvent → RunState
  | RunEvent.main => if s.monitor = Monitor.crashed then s else mainStep e s
  | RunEvent.monitor cur => monitorStep progress cur s

/-- The state after a schedule, from the call of `Run`. -/
def RunState.exec (progress : Int) (e : Env) (events : List RunEvent) : RunState :=
  events.foldl (RunState.step progress e) {}

/-- How many calls of `Run e` the caller's goroutine has made when it stands
at a given point. -/
def MainPc.callsMade : MainPc → Nat
  | MainPc.entry => 0
  | MainPc.spawned => 1
  | MainPc.announced => 2
  | MainPc.processing => 3
  | MainPc.processed => 3
  | MainPc.returned => 4

/-- What every state of an execution satisfies: the monitor has not panicked;
a channel it waits on is the one `time.Tick` gave for `progress` seconds;
nothing is printed when that duration is not positive; the monitor goroutine is
missing exactly before the `go` statement; and the calls made so far are the
first calls of `Run e`. -/
def RunInv (progress : Int) (e : Env) (s : RunState) : Prop :=
  s.monitor ≠ Monitor.crashed ∧
  (∀ t prev, s.monitor = Monitor.waiting t prev →
    t = timeTick (goMul progress timeSecond)) ∧
  (goMul progress timeSecond ≤ 0 → s.printed = []) ∧
  (s.monitor = Monitor.absent ↔ s.pc = MainPc.entry) ∧
  s.calls = (Run e).take s.pc.callsMade

end ripper

/-! ## The discard writer (`writer/dummy.go`) -/

namespace writer

/-- `type dummyWriter struct{}`: a struct without fields. -/
structure dummyWriter where
deriving DecidableEq, Repr

/-- `newDummyWriter`. -/
def newDummyWriter : dummyWriter := {}

/-- `(*dummyWriter).Write`: the body is `return nil`.  The record `s` is a Go
slice, `none` being the nil slice.  The method runs in a program whose whole
state is `world`; it returns that state as it received it, and its error. -/
def dummyWriter.Write {σ : Type} (_w : dummyWriter) (_s : Option (List String))
    (world : σ) : σ × Option String :=
  (world, none)

/-- `(*dummyWriter).Flush`: the body is empty. -/
def dummyWriter.Flush {σ : Type} (_w : dummyWriter) (world : σ) : σ :=
  world

/-- One call on the writer. -/
inductive SinkCall where
  | Write (s : Option (List String))
  | Flush
deriving DecidableEq, Repr

/-- A sequence of calls on the discard writer, made one after the other from
the state `world`: the final state and the errors the `Write` calls returned,
in call order. -/
def dummyWriter.calls {σ : Type} (w : dummyWriter) :
    List SinkCall → σ → σ × List (Option String)
  | [], world => (world, [])
  | SinkCall.Write s :: rest, world =>
      let r := w.Write s world
      let t := dummyWriter.calls w rest r.1
      (t.1, r.2 :: t.2)
  | SinkCall.Flush :: rest, world =>
      dummyWriter.calls w rest (w.Flush world)

end writer

/-! ## Theorems -/

namespace ripper

/-- C1: `checkFlags` returns an error exactly when `input` is empty, or
`column` is empty, or `output` is empty while neither `show` nor `debug` is
set; otherwise it returns `nil`.  `InitFlags` returns what `checkFlags` does. -/
theorem checkFlags_error_iff (f : Flags) :
    ((checkFlags f).isSome ↔
        (f.input = "" ∨ f.column = "" ∨
          (f.output = "" ∧ f.show_ = false ∧ f.debug = false))) ∧
    ((checkFlags f = none) ↔
        (f.input ≠ "" ∧ f.column ≠ "" ∧
          (f.output ≠ "" ∨ f.show_ = true ∨ f.debug = true))) ∧
    InitFlags f = (f, checkFlags f) := by
  refine ⟨?_, ?_, rfl⟩
  · unfold checkFlags
    by_cases hi : f.input = "" <;> by_cases ho : f.output = "" <;>
      by_cases hc : f.column = "" <;> cases hs : f.show_ <;>
      cases hd : f.debug <;> simp [hi, ho, hc]
  · unfold checkFlags
    by_cases hi : f.input = "" <;> by_cases ho : f.output = "" <;>
      by_cases hc : f.column = "" <;> cases hs : f.show_ <;>
      cases hd : f.debug <;> simp [hi, ho, hc]

theorem checkFlags_accepts (f : Flags) :
    checkFlags f = none ↔
      (f.input ≠ "" ∧ f.column ≠ "" ∧
        (f.output ≠ "" ∨ f.show_ = true ∨ f.debug = true)) := by
  unfold checkFlags
  by_cases hi : f.input = "" <;> by_cases ho : f.output = "" <;>
    by_cases hc : f.column = "" <;> cases hs : f.show_ <;>
    cases hd : f.debug <;> simp [hi, ho, hc]

end ripper

namespace writer

/-- C2: the discard writer does nothing and never fails: `Write` returns a nil
error for every record (the nil slice included), neither `Write` nor `Flush`
changes the state, and any sequence of calls leaves the state as it was and
returns only nil errors. -/
theorem dummyWriter_noop {σ : Type} (w : dummyWriter) (world : σ) :
    (∀ s : Option (List String), w.Write s world = (world, none)) ∧
    w.Flush world = world ∧
    (∀ cs : List SinkCall,
      (dummyWriter.calls w cs world).1 = world ∧
      (dummyWriter.calls w cs world).1 = (dummyWriter.calls w [] world).1 ∧
      (∀ e ∈ (dummyWriter.calls w cs world).2, e = none)) := by
  refine ⟨fun _ => rfl, rfl, ?_⟩
  intro cs
  induction cs with
  | nil => simp [dummyWriter.calls]
  | cons c rest ih =>
    cases c with
    | Write s =>
      simp only [dummyWriter.calls, dummyWriter.Write]
      refine ⟨ih.1, ih.2.1, ?_⟩
      intro e he
      rcases List.mem_cons.mp he with h | h
      · exact h
      · exact ih.2.2 e h
    | Flush =>
      simp only [dummyWriter.calls, dummyWriter.Flush]
      exact ih

end writer

namespace ripper

/-! ### Arithmetic of the monitor -/

theorem wrap64_of_isInt64 {x : Int} (h : isInt64 x) : wrap64 x = x := by
  unfold isInt64 at h
  unfold wrap64
  omega

theorem goMul_second_pos {progress : Int} (h : 0 < goMul progress timeSecond) :
    progress ≠ 0 := by
  rintro rfl
  simp [goMul, wrap64] at h

theorem timeTick_some {d t : Int} (h : timeTick d = some t) : t = d ∧ 0 < d := by
  unfold timeTick at h
  split at h
  · cases h
  · simp at h; omega

theorem tdiv_bounds {a b : Int} (ha : 0 ≤ a) (hb : 0 < b) :
    0 ≤ a.tdiv b ∧ a.tdiv b ≤ a ∧ b * a.tdiv b ≤ a := by
  rw [Int.tdiv_eq_ediv ha (le_of_lt hb)]
  refine ⟨Int.ediv_nonneg ha (le_of_lt hb), ?_, ?_⟩
  · exact Int.ediv_le_self b ha
  · exact Int.mul_ediv_self_le (ne_of_gt hb)


theorem isInt64_tdiv {a b : Int} (ha : isInt64 a) (hb : b ≠ 0)
    (h : ¬ (a = -(2 ^ 63) ∧ b = -1)) : isInt64 (a.tdiv b) := by
  unfold isInt64 at *
  by_cases h1 : b = 1
  · subst h1; simpa using ha
  by_cases h2 : b = -1
  · subst h2
    have h3 : a.tdiv (-1) = -a := by rw [Int.tdiv_neg, Int.tdiv_one]
    rw [h3]
    have h4 : a ≠ -(2 ^ 63) := fun h5 => h ⟨h5, rfl⟩
    omega
  have h3 : (a.tdiv b).natAbs = a.natAbs / b.natAbs := Int.natAbs_tdiv a b
  have h4 : 2 ≤ b.natAbs := by omega
  have h5 : a.natAbs / b.natAbs ≤ a.natAbs / 2 := Nat.div_le_div_left h4 (by decide)
  omega

theorem monitorTick_of_ne_zero (progress prev cur : Int) (hp : progress ≠ 0) :
    monitorTick progress prev cur =
      some ({ line := cur, delta := goSub cur prev,
              tps := wrap64 ((goSub cur prev).tdiv progress) }, cur) := by
  simp [monitorTick, goDiv, hp]

/-! ### What holds in every state of an execution of `Run` -/

theorem mainStep_monitor (e : Env) (s : RunState) :
    (mainStep e s).monitor = if s.pc = MainPc.entry then Monitor.created else s.monitor := by
  unfold mainStep
  cases hpc : s.pc <;> simp
  cases e.runErr <;> simp

theorem mainStep_printed (e : Env) (s : RunState) :
    (mainStep e s).printed = s.printed := by
  unfold mainStep
  cases hpc : s.pc <;> simp
  cases e.runErr <;> simp

theorem mainStep_pc_ne_entry (e : Env) (s : RunState) :
    (mainStep e s).pc ≠ MainPc.entry := by
  unfold mainStep
  cases hpc : s.pc <;> simp [hpc]
  cases e.runErr <;> simp

theorem mainStep_calls (e : Env) (s : RunState)
    (h : s.calls = (Run e).take s.pc.callsMade) :
    (mainStep e s).calls = (Run e).take (mainStep e s).pc.callsMade := by
  unfold mainStep
  cases hpc : s.pc <;> rw [hpc] at h <;>
    cases he : e.runErr <;>
    simp_all [Run, MainPc.callsMade]

theorem RunInv.live {progress : Int} {e : Env} {s : RunState} (h : RunInv progress e s)
    {d prev : Int} (hw : s.monitor = Monitor.waiting (some d) prev) :
    d = goMul progress timeSecond ∧ 0 < goMul progress timeSecond ∧ progress ≠ 0 := by
  have ht := timeTick_some (h.2.1 (some d) prev hw).symm
  exact ⟨ht.1, ht.2, goMul_second_pos ht.2⟩

theorem step_inv (progress : Int) (e : Env) (s : RunState) (ev : RunEvent)
    (h : RunInv progress e s) : RunInv progress e (RunState.step progress e s ev) := by
  have hlive := @RunInv.live progress e s h
  obtain ⟨h1, h2, h3, h4, h5⟩ := h
  cases ev with
  | main =>
    simp only [RunState.step, if_neg h1]
    unfold RunInv
    rw [mainStep_monitor, mainStep_printed]
    by_cases hpc : s.pc = MainPc.entry
    · simp only [if_pos hpc]
      refine ⟨by simp, by simp, h3, ?_, mainStep_calls e s h5⟩
      simpa using mainStep_pc_ne_entry e s
    · simp only [if_neg hpc]
      refine ⟨h1, h2, h3, ?_, mainStep_calls e s h5⟩
      constructor
      · intro hm; exact absurd (h4.mp hm) hpc
      · intro hm; exact absurd hm (mainStep_pc_ne_entry e s)
  | monitor cur =>
    simp only [RunState.step]
    unfold monitorStep
    cases hm : s.monitor with
    | absent => simp only; exact ⟨h1, h2, h3, h4, h5⟩
    | created =>
      refine ⟨by simp, ?_, by simpa using h3, ?_, h5⟩
      · intro t prev hw
        simp only [Monitor.waiting.injEq] at hw
        exact hw.1.symm
      · simp only
        constructor
        · intro hh; cases hh
        · intro hh; rw [h4.mpr hh] at hm; cases hm
    | waiting tick prev =>
      cases tick with
      | none => simp only; exact ⟨h1, h2, h3, h4, h5⟩
      | some d =>
        obtain ⟨hd, hpos, hp⟩ := hlive hm
        simp only [monitorTick_of_ne_zero progress prev cur hp]
        refine ⟨by simp, ?_, ?_, ?_, h5⟩
        · intro t p1 hw
          simp only [Monitor.waiting.injEq] at hw
          rw [← hw.1]
          exact h2 (some d) prev hm
        · intro hle; omega
        · simp only
          constructor
          · intro hh; cases hh
          · intro hh; rw [h4.mpr hh] at hm; cases hm
    | crashed => exact absurd hm h1

theorem foldl_inv (progress : Int) (e : Env) (events : List RunEvent) :
    ∀ s, RunInv progress e s →
      RunInv progress e (events.foldl (RunState.step progress e) s) := by
  induction events with
  | nil => intro s h; exact h
  | cons ev rest ih =>
    intro s h
    exact ih _ (step_inv progress e s ev h)

theorem exec_inv (progress : Int) (e : Env) (events : List RunEvent) :
    RunInv progress e (RunState.exec progress e events) := by
  apply foldl_inv
  refine ⟨by simp, by simp, by simp, by simp, by simp [MainPc.callsMade]⟩


/-! ### The monitor: one tick, division, accounting -/

/-- C3: on every tick of the monitor of `Run` (the monitor waits on a live
channel with the value `prev`, and `GetCurrentPosition` returns `cur`) the
line printed shows `cur` and the Go quotient `(cur-prev)/progress`, and `prev`
becomes `cur`; without overflow the quotient is the integer quotient of
`cur - prev` by `progress` truncated toward zero.  `prev` starts at `0`.  The
positions `0` then `10` with `progress = 30` print the quotient `10/30`, which
is `0` in Go's integer division. -/
theorem monitor_tick_reports (progress : Int) (e : Env) (events : List RunEvent)
    (d prev cur : Int)
    (hw : (RunState.exec progress e events).monitor = Monitor.waiting (some d) prev) :
    RunState.step progress e (RunState.exec progress e events) (RunEvent.monitor cur) =
      { RunState.exec progress e events with
        monitor := Monitor.waiting (some d) cur,
        printed := (RunState.exec progress e events).printed ++
          [{ line := cur, delta := goSub cur prev,
             tps := wrap64 ((goSub cur prev).tdiv progress) }] } ∧
    (isInt64 (cur - prev) → ¬ (cur - prev = -(2 ^ 63) ∧ progress = -1) →
      goSub cur prev = cur - prev ∧
      wrap64 ((goSub cur prev).tdiv progress) = (cur - prev).tdiv progress) ∧
    (∀ s : RunState, s.monitor = Monitor.created →
      (monitorStep progress cur s).monitor =
        Monitor.waiting (timeTick (goMul progress timeSecond)) 0) ∧
    (RunState.exec 30 e [RunEvent.main, RunEvent.monitor 0, RunEvent.monitor 10]).printed =
      [{ line := 10, delta := 10, tps := Int.tdiv 10 30 }] ∧
    Int.tdiv 10 30 = 0 := by
  have hinv := exec_inv progress e events
  obtain ⟨-, -, hp⟩ := hinv.live hw
  refine ⟨?_, ?_, ?_, ?_, by decide⟩
  · simp only [RunState.step, monitorStep, hw, monitorTick_of_ne_zero progress prev cur hp]
  · intro h1 h2
    have h3 : goSub cur prev = cur - prev := wrap64_of_isInt64 h1
    rw [h3]
    exact ⟨rfl, wrap64_of_isInt64 (isInt64_tdiv h1 hp h2)⟩
  · intro s hs
    simp [monitorStep, hs]
  · have h0 : Int.tdiv 10 30 = 0 := by decide
    simp [RunState.exec, RunState.step, mainStep, monitorStep, monitorTick, goDiv, goSub,
      goMul, timeTick, timeSecond, wrap64, h0]

/-- A tick of C3 at a concrete execution: `progress = 30`, the goroutine
started and at its `select`, then a tick with position `10`. -/
theorem monitor_tick_reports_witness :
    (RunState.exec 30 {} [RunEvent.main, RunEvent.monitor 0]).monitor =
        Monitor.waiting (some 30000000000) 0 ∧
    RunState.step 30 {} (RunState.exec 30 {} [RunEvent.main, RunEvent.monitor 0])
        (RunEvent.monitor 10) =
      { RunState.exec 30 {} [RunEvent.main, RunEvent.monitor 0] with
        monitor := Monitor.waiting (some 30000000000) 10,
        printed := (RunState.exec 30 {} [RunEvent.main, RunEvent.monitor 0]).printed ++
          [{ line := 10, delta := goSub 10 0, tps := wrap64 ((goSub 10 0).tdiv 30) }] } :=
  have h : (RunState.exec 30 {} [RunEvent.main, RunEvent.monitor 0]).monitor =
      Monitor.waiting (some 30000000000) 0 := by decide
  ⟨h, (monitor_tick_reports 30 {} [RunEvent.main, RunEvent.monitor 0] 30000000000 0 10 h).1⟩

/-- C9: the division of the monitor never divides by zero, whatever the value
of `progress`: no execution of `Run` reaches the panic; whenever the monitor
waits on a live channel `progress` is not `0` and the division of the next
tick is defined; and when the duration of `progress` seconds is not positive
(as for `progress = 0`) `time.Tick` gives the nil channel and no tick is ever
received, so nothing is printed. -/
theorem monitor_never_divides_by_zero (progress : Int) (e : Env)
    (events : List RunEvent) :
    (RunState.exec progress e events).monitor ≠ Monitor.crashed ∧
    (∀ d prev cur : Int,
      (RunState.exec progress e events).monitor = Monitor.waiting (some d) prev →
        0 < goMul progress timeSecond ∧ progress ≠ 0 ∧
        (goDiv (goSub cur prev) progress).isSome = true ∧
        (monitorTick progress prev cur).isSome = true) ∧
    (goMul progress timeSecond ≤ 0 →
      timeTick (goMul progress timeSecond) = none ∧
      (RunState.exec progress e events).printed = []) ∧
    (progress = 0 → (RunState.exec progress e events).printed = []) := by
  have hinv := exec_inv progress e events
  refine ⟨hinv.1, ?_, ?_, ?_⟩
  · intro d prev cur hw
    obtain ⟨-, hpos, hp⟩ := hinv.live hw
    refine ⟨hpos, hp, ?_, ?_⟩
    · simp [goDiv, hp]
    · simp [monitorTick_of_ne_zero progress prev cur hp]
  · intro hle
    exact ⟨by simp [timeTick, hle], hinv.2.2.1 hle⟩
  · intro h0
    apply hinv.2.2.1
    subst h0
    simp [goMul, wrap64]


theorem monitorLoop_chain (progress : Int) (hp : 0 < progress) :
    ∀ (cs : List Int) (prev : Int), 0 ≤ prev → List.Chain (· ≤ ·) prev cs →
      (∀ c ∈ cs, c < 2 ^ 63) →
      ∃ samples : List Sample,
        monitorLoop progress prev cs = some (samples, cs.getLastD prev) ∧
        samples.map (fun s => s.line) = cs ∧
        (samples.map (fun s => s.delta)).sum = cs.getLastD prev - prev ∧
        (∀ s ∈ samples, 0 ≤ s.tps) ∧
        progress * (samples.map (fun s => s.tps)).sum ≤ cs.getLastD prev - prev := by
  intro cs
  induction cs with
  | nil =>
    intro prev _ _ _
    exact ⟨[], by simp [monitorLoop]⟩
  | cons c rest ih =>
    intro prev hprev hchain hlt
    obtain ⟨hle, hrest⟩ := List.chain_cons.mp hchain
    have hc : c < 2 ^ 63 := hlt c (List.mem_cons_self c rest)
    have hdelta : goSub c prev = c - prev :=
      wrap64_of_isInt64 (by unfold isInt64; omega)
    obtain ⟨hq0, hqle, hqmul⟩ := tdiv_bounds (a := c - prev) (by omega) hp
    have htps : wrap64 ((c - prev).tdiv progress) = (c - prev).tdiv progress :=
      wrap64_of_isInt64 (by unfold isInt64; omega)
    obtain ⟨ss, hrun, hlines, hsum, hnonneg, hmul⟩ :=
      ih c (by omega) hrest (fun x hx => hlt x (List.mem_cons_of_mem c hx))
    refine ⟨{ line := c, delta := c - prev, tps := (c - prev).tdiv progress } :: ss,
      ?_, ?_, ?_, ?_, ?_⟩
    · simp only [monitorLoop,
        monitorTick_of_ne_zero progress prev c (ne_of_gt hp), hdelta, htps, hrun,
        List.getLastD_cons]
    · simp [hlines]
    · simp only [List.map_cons, List.sum_cons, hsum, List.getLastD_cons]
      omega
    · intro s hs
      rcases List.mem_cons.mp hs with h | h
      · subst h; exact hq0
      · exact hnonneg s h
    · simp only [List.map_cons, List.sum_cons, List.getLastD_cons, mul_add]
      omega

theorem foldl_ticks (progress : Int) (e : Env) :
    ∀ (cs : List Int) (s : RunState) (d prev : Int) (samples : List Sample) (last : Int),
      s.monitor = Monitor.waiting (some d) prev →
      monitorLoop progress prev cs = some (samples, last) →
      (cs.map RunEvent.monitor).foldl (RunState.step progress e) s =
        { s with monitor := Monitor.waiting (some d) last,
                 printed := s.printed ++ samples } := by
  intro cs
  induction cs with
  | nil =>
    intro s d prev samples last hm hl
    simp only [monitorLoop, Option.some.injEq, Prod.mk.injEq] at hl
    obtain ⟨rfl, rfl⟩ := hl
    cases s
    simp only at hm
    subst hm
    simp
  | cons c rest ih =>
    intro s d prev samples last hm hl
    simp only [monitorLoop] at hl
    cases ht : monitorTick progress prev c with
    | none => simp [ht] at hl
    | some r =>
      obtain ⟨smp, p1⟩ := r
      simp only [ht] at hl
      cases hr : monitorLoop progress p1 rest with
      | none => simp [hr] at hl
      | some r2 =>
        obtain ⟨ss, l2⟩ := r2
        simp only [hr, Option.some.injEq, Prod.mk.injEq] at hl
        obtain ⟨rfl, rfl⟩ := hl
        simp only [List.map_cons, List.foldl_cons]
        have hstep : RunState.step progress e s (RunEvent.monitor c) =
            { s with monitor := Monitor.waiting (some d) p1,
                     printed := s.printed ++ [smp] } := by
          simp [RunState.step, monitorStep, hm, ht]
        rw [hstep, ih _ d p1 ss l2 rfl hr]
        simp

/-- C10: the accounting of the monitor telescopes and never reports too much:
for `progress > 0` and ticks at positions `c_1 <= ... <= c_k` (`k >= 1`, all
non-negative Go integers) the loop runs through all `k` ticks, `prev` ends as
`c_k`, the `k` values of `cur-prev` add up to `c_k`, every quotient printed is
non-negative, and `progress` times the sum of the quotients is at most `c_k`.
These samples are what an execution of `Run` prints in which the monitor
receives these ticks. -/
theorem monitor_accounting (progress c : Int) (cs : List Int)
    (hp : 0 < progress)
    (hsorted : List.Chain' (· ≤ ·) (c :: cs))
    (hrange : ∀ x ∈ c :: cs, 0 ≤ x ∧ x < 2 ^ 63) :
    ∃ samples : List Sample,
      monitorLoop progress 0 (c :: cs) =
        some (samples, (c :: cs).getLast (List.cons_ne_nil c cs)) ∧
      samples.map (fun s => s.line) = c :: cs ∧
      (samples.map (fun s => s.delta)).sum = (c :: cs).getLast (List.cons_ne_nil c cs) ∧
      (∀ s ∈ samples, 0 ≤ s.tps) ∧
      progress * (samples.map (fun s => s.tps)).sum ≤
        (c :: cs).getLast (List.cons_ne_nil c cs) ∧
      (0 < goMul progress timeSecond → ∀ e : Env,
        (RunState.exec progress e
          (RunEvent.main :: RunEvent.monitor 0 :: (c :: cs).map RunEvent.monitor)).printed =
            samples ∧
        (RunState.exec progress e
          (RunEvent.main :: RunEvent.monitor 0 :: (c :: cs).map RunEvent.monitor)).monitor =
            Monitor.waiting (some (goMul progress timeSecond))
              ((c :: cs).getLast (List.cons_ne_nil c cs))) := by
  have h0 : 0 ≤ c := (hrange c (List.mem_cons_self c cs)).1
  have hchain : List.Chain (· ≤ ·) 0 (c :: cs) := List.chain_cons.mpr ⟨h0, hsorted⟩
  obtain ⟨ss, hrun, hlines, hsum, hnonneg, hmul⟩ :=
    monitorLoop_chain progress hp (c :: cs) 0 (le_refl 0) hchain
      (fun x hx => (hrange x hx).2)
  have hlast : (c :: cs).getLastD 0 = (c :: cs).getLast (List.cons_ne_nil c cs) := by
    rw [List.getLastD_cons, List.getLast_eq_getLastD]
  rw [hlast] at hrun hsum hmul
  refine ⟨ss, hrun, hlines, by simpa using hsum, hnonneg, by simpa using hmul, ?_⟩
  intro hpos e
  have htick : timeTick (goMul progress timeSecond) = some (goMul progress timeSecond) := by
    simp [timeTick, hpos]
  have hstart : RunState.exec progress e
      (RunEvent.main :: RunEvent.monitor 0 :: (c :: cs).map RunEvent.monitor) =
      ((c :: cs).map RunEvent.monitor).foldl (RunState.step progress e)
        { pc := MainPc.spawned,
          monitor := Monitor.waiting (some (goMul progress timeSecond)) 0,
          calls := [Call.GoMonitor], printed := [] } := by
    simp [RunState.exec, RunState.step, mainStep, monitorStep, htick]
  rw [hstart, foldl_ticks progress e (c :: cs) _ (goMul progress timeSecond) 0 ss _ rfl hrun]
  simp

/-- The accounting of C10 at `progress = 30` and the positions `10, 10, 95`. -/
theorem monitor_accounting_witness :
    (0 : Int) < 30 ∧ List.Chain' (· ≤ ·) ((10 : Int) :: [10, 95]) ∧
    (∀ x ∈ (10 : Int) :: [10, 95], 0 ≤ x ∧ x < 2 ^ 63) ∧
    ∃ samples : List Sample,
      monitorLoop 30 0 (10 :: [10, 95]) =
        some (samples, ((10 : Int) :: [10, 95]).getLast (List.cons_ne_nil 10 [10, 95])) ∧
      samples.map (fun s => s.line) = 10 :: [10, 95] ∧
      (samples.map (fun s => s.delta)).sum =
        ((10 : Int) :: [10, 95]).getLast (List.cons_ne_nil 10 [10, 95]) ∧
      (∀ s ∈ samples, 0 ≤ s.tps) ∧
      30 * (samples.map (fun s => s.tps)).sum ≤
        ((10 : Int) :: [10, 95]).getLast (List.cons_ne_nil 10 [10, 95]) :=
  have h1 : (0 : Int) < 30 := by decide
  have h2 : List.Chain' (· ≤ ·) ((10 : Int) :: [10, 95]) := by simp
  have h3 : ∀ x ∈ (10 : Int) :: [10, 95], 0 ≤ x ∧ x < 2 ^ 63 := by decide
  match monitor_accounting 30 10 [10, 95] h1 h2 h3 with
  | ⟨samples, hrun, hlines, hsum, hnonneg, hmul, _⟩ =>
    ⟨h1, h2, h3, samples, hrun, hlines, hsum, hnonneg, hmul⟩


/-! ### The lifetime of the monitor -/

theorem exec_append (progress : Int) (e : Env) (events more : List RunEvent) :
    RunState.exec progress e (events ++ more) =
      more.foldl (RunState.step progress e) (RunState.exec progress e events) := by
  simp [RunState.exec, List.foldl_append]

theorem step_returned (progress : Int) (e : Env) (s : RunState) (ev : RunEvent)
    (h : s.pc = MainPc.returned) : (RunState.step progress e s ev).pc = MainPc.returned := by
  cases ev with
  | main =>
    simp only [RunState.step]
    split
    · exact h
    · simp [mainStep, h]
  | monitor cur =>
    simp only [RunState.step, monitorStep]
    split
    · exact h
    · exact h
    · exact h
    · split <;> exact h
    · exact h

theorem foldl_returned (progress : Int) (e : Env) (more : List RunEvent) :
    ∀ s : RunState, s.pc = MainPc.returned →
      (more.foldl (RunState.step progress e) s).pc = MainPc.returned := by
  induction more with
  | nil => intro s h; exact h
  | cons ev rest ih => intro s h; exact ih _ (step_returned progress e s ev h)

/-- C5, as the code has it, at a concrete execution: with `progress = 30` the
monitor is started by the first step of `Run`, before `ReadAndWriteLines` is
called; `Run` then returns with the monitor still at its `select` on a live
channel, and a tick received after the return prints one more sample. -/
theorem monitor_active_after_Run_returned :
    (RunState.exec 30 {} [RunEvent.main]).monitor = Monitor.created ∧
    Call.ReadAndWriteLines ∉ (RunState.exec 30 {} [RunEvent.main]).calls ∧
    (RunState.exec 30 {} [RunEvent.main, RunEvent.monitor 0, RunEvent.main, RunEvent.main,
        RunEvent.main, RunEvent.main]).pc = MainPc.returned ∧
    (RunState.exec 30 {} [RunEvent.main, RunEvent.monitor 0, RunEvent.main, RunEvent.main,
        RunEvent.main, RunEvent.main]).monitor = Monitor.waiting (some 30000000000) 0 ∧
    (RunState.exec 30 {} [RunEvent.main, RunEvent.monitor 0, RunEvent.main, RunEvent.main,
        RunEvent.main, RunEvent.main]).printed = [] ∧
    (RunState.step 30 {}
        (RunState.exec 30 {} [RunEvent.main, RunEvent.monitor 0, RunEvent.main, RunEvent.main,
          RunEvent.main, RunEvent.main])
        (RunEvent.monitor 10)).printed = [{ line := 10, delta := 10, tps := 0 }] := by
  refine ⟨by decide, by decide, by decide, by decide, by decide, by decide⟩

/-- C5, amended: `Run` starts the monitor with its first statement, before it
calls `ReadAndWriteLines`, and never stops it.  In every state reached after
`Run` has returned (all of its calls made, processing ended with or without an
error) the monitor goroutine exists and has not panicked, and stays so in every
later state; and when the duration of `progress` seconds is positive it can
still receive ticks and print further samples. -/
theorem monitor_outlives_Run (progress : Int) (e : Env) (events : List RunEvent)
    (hret : (RunState.exec progress e events).pc = MainPc.returned) :
    (RunState.exec progress e events).calls = Run e ∧
    (∀ more : List RunEvent,
      (RunState.exec progress e (events ++ more)).pc = MainPc.returned ∧
      (RunState.exec progress e (events ++ more)).monitor ≠ Monitor.absent ∧
      (RunState.exec progress e (events ++ more)).monitor ≠ Monitor.crashed) ∧
    (0 < goMul progress timeSecond → ∀ cur : Int,
      (RunState.exec progress e events).printed.length <
        (RunState.exec progress e
          (events ++ [RunEvent.monitor cur, RunEvent.monitor cur])).printed.length) ∧
    (∀ earlier : List RunEvent,
      Call.ReadAndWriteLines ∈ (RunState.exec progress e earlier).calls →
        (RunState.exec progress e earlier).monitor ≠ Monitor.absent) := by
  have hinv := exec_inv progress e events
  refine ⟨?_, ?_, ?_, ?_⟩
  · rw [hinv.2.2.2.2, hret]
    cases he : e.runErr <;> simp [Run, MainPc.callsMade, he]
  · intro more
    have hpc : (RunState.exec progress e (events ++ more)).pc = MainPc.returned := by
      rw [exec_append]; exact foldl_returned progress e more _ hret
    have hi := exec_inv progress e (events ++ more)
    refine ⟨hpc, ?_, hi.1⟩
    intro hm
    have := hi.2.2.2.1.mp hm
    rw [hpc] at this
    cases this
  · intro hpos cur
    have hne : (RunState.exec progress e events).monitor ≠ Monitor.absent := by
      intro hm
      have := hinv.2.2.2.1.mp hm
      rw [hret] at this
      cases this
    have hp : progress ≠ 0 := goMul_second_pos hpos
    have htick : timeTick (goMul progress timeSecond) = some (goMul progress timeSecond) := by
      simp [timeTick, hpos]
    rw [exec_append]
    simp only [List.foldl_cons, List.foldl_nil, RunState.step]
    cases hm : (RunState.exec progress e events).monitor with
    | absent => exact absurd hm hne
    | crashed => exact absurd hm hinv.1
    | created =>
      simp [monitorStep, hm, htick, monitorTick_of_ne_zero progress _ cur hp]
    | waiting t prev =>
      have ht := hinv.2.1 t prev hm
      rw [htick] at ht
      subst ht
      simp [monitorStep, hm, monitorTick_of_ne_zero progress _ cur hp]
  · intro earlier hmem hm
    have hi := exec_inv progress e earlier
    have hpc := hi.2.2.2.1.mp hm
    rw [hi.2.2.2.2, hpc] at hmem
    simp [MainPc.callsMade] at hmem

/-- The statement of C5 as amended at a concrete execution in which `Run` has
returned after a processing error. -/
theorem monitor_outlives_Run_witness :
    (RunState.exec 30 { runErr := some "read error" }
        [RunEvent.main, RunEvent.main, RunEvent.main, RunEvent.main, RunEvent.main]).pc =
      MainPc.returned ∧
    (RunState.exec 30 { runErr := some "read error" }
        [RunEvent.main, RunEvent.main, RunEvent.main, RunEvent.main, RunEvent.main]).calls =
      Run { runErr := some "read error" } :=
  have h : (RunState.exec 30 { runErr := some "read error" }
      [RunEvent.main, RunEvent.main, RunEvent.main, RunEvent.main, RunEvent.main]).pc =
      MainPc.returned := by decide
  ⟨h, (monitor_outlives_Run 30 { runErr := some "read error" }
      [RunEvent.main, RunEvent.main, RunEvent.main, RunEvent.main, RunEvent.main] h).1⟩


/-! ### The driver: `newDefaultRipper` and `AutoRun` -/

theorem checkFlags_none {f : Flags} (h : checkFlags f = none) :
    f.input ≠ "" ∧ f.column ≠ "" ∧ (f.output = "" → f.show_ = true ∨ f.debug = true) := by
  have h1 := (checkFlags_accepts f).mp h
  refine ⟨h1.1, h1.2.1, ?_⟩
  intro ho
  rcases h1.2.2 with h2 | h2
  · exact absurd ho h2
  · exact h2

theorem AutoRun_flag_error {f : Flags} (d : Defaults) (e : Env) {err : String}
    (h : checkFlags f = some err) : AutoRun f d e = [Call.Println err] := by
  simp [AutoRun, InitFlags, parseFlags, h]

theorem AutoRun_setup_error {f : Flags} {d : Defaults} {e : Env} {err : String}
    (h : checkFlags f = none) (herr : (newDefaultRipper f d e).2.2 = some err) :
    AutoRun f d e = (newDefaultRipper f d e).1 ++ [Call.Println err] := by
  unfold AutoRun InitFlags parseFlags
  simp only [h]
  rcases hn : newDefaultRipper f d e with ⟨calls, r, er⟩
  rw [hn] at herr
  simp only at herr
  subst herr
  rfl

theorem AutoRun_setup_ok {f : Flags} {d : Defaults} {e : Env}
    (h : checkFlags f = none) (hok : (newDefaultRipper f d e).2.2 = none) :
    AutoRun f d e = (newDefaultRipper f d e).1 ++ Run e ++ [Call.Close] := by
  unfold AutoRun InitFlags parseFlags
  simp only [h]
  rcases hn : newDefaultRipper f d e with ⟨calls, r, er⟩
  rw [hn] at hok
  simp only at hok
  subst hok
  rfl

theorem newDefaultRipper_new_error (f : Flags) (d : Defaults) {e : Env} {err : String}
    (h : e.newErr = some err) :
    newDefaultRipper f d e = ([constructorCall f], none, some err) := by
  simp [newDefaultRipper, h]

theorem newDefaultRipper_dic_error (f : Flags) (d : Defaults) {e : Env} {err : String}
    (hn : e.newErr = none) (hd : f.dic ≠ "") (h : e.dicErr = some err) :
    newDefaultRipper f d e =
      (constructorCall f :: quoteCalls f ++ dictionaryCalls f ++ [Call.Close],
        none, some err) := by
  simp [newDefaultRipper, hn, hd, h]

theorem newDefaultRipper_header_error (f : Flags) (d : Defaults) {e : Env} {err : String}
    (hn : e.newErr = none) (hd : f.dic = "" ∨ e.dicErr = none)
    (h : e.headerErr = some err) :
    newDefaultRipper f d e =
      (constructorCall f :: quoteCalls f ++ dictionaryCalls f ++ registrationCalls d ++
        [headerCall f, Call.Close], none, some err) := by
  rcases hd with hd | hd <;> simp [newDefaultRipper, hn, hd, h]

theorem newDefaultRipper_ok (f : Flags) (d : Defaults) {e : Env}
    (hn : e.newErr = none) (hd : f.dic = "" ∨ e.dicErr = none)
    (h : e.headerErr = none) :
    newDefaultRipper f d e =
      (constructorCall f :: quoteCalls f ++ dictionaryCalls f ++ registrationCalls d ++
        [headerCall f], some (setOutputOptions f e.newRipper), none) := by
  rcases hd with hd | hd <;> simp [newDefaultRipper, hn, hd, h]

/-- The five ways through `AutoRun`, with the calls made on each. -/
theorem AutoRun_cases (f : Flags) (d : Defaults) (e : Env) :
    (∃ err, checkFlags f = some err ∧ AutoRun f d e = [Call.Println err]) ∨
    (checkFlags f = none ∧ ∃ err, e.newErr = some err ∧
      AutoRun f d e = [constructorCall f] ++ [Call.Println err]) ∨
    (checkFlags f = none ∧ e.newErr = none ∧ f.dic ≠ "" ∧ ∃ err, e.dicErr = some err ∧
      AutoRun f d e =
        constructorCall f :: quoteCalls f ++ dictionaryCalls f ++ [Call.Close] ++
          [Call.Println err]) ∨
    (checkFlags f = none ∧ e.newErr = none ∧ (f.dic = "" ∨ e.dicErr = none) ∧
      ∃ err, e.headerErr = some err ∧
      AutoRun f d e =
        constructorCall f :: quoteCalls f ++ dictionaryCalls f ++ registrationCalls d ++
          [headerCall f, Call.Close] ++ [Call.Println err]) ∨
    (checkFlags f = none ∧ e.newErr = none ∧ (f.dic = "" ∨ e.dicErr = none) ∧
      e.headerErr = none ∧
      AutoRun f d e =
        constructorCall f :: quoteCalls f ++ dictionaryCalls f ++ registrationCalls d ++
          [headerCall f] ++ Run e ++ [Call.Close]) := by
  cases hcf : checkFlags f with
  | some err => exact Or.inl ⟨err, rfl, AutoRun_flag_error d e hcf⟩
  | none =>
    right
    cases hn : e.newErr with
    | some err =>
      refine Or.inl ⟨rfl, err, rfl, ?_⟩
      have h1 : (newDefaultRipper f d e).2.2 = some err := by
        rw [newDefaultRipper_new_error f d hn]
      rw [AutoRun_setup_error hcf h1, newDefaultRipper_new_error f d hn]
    | none =>
      right
      by_cases hdic : f.dic ≠ "" ∧ ∃ err, e.dicErr = some err
      · obtain ⟨hd, err, hde⟩ := hdic
        refine Or.inl ⟨rfl, rfl, hd, err, hde, ?_⟩
        have h1 : (newDefaultRipper f d e).2.2 = some err := by
          rw [newDefaultRipper_dic_error f d hn hd hde]
        rw [AutoRun_setup_error hcf h1, newDefaultRipper_dic_error f d hn hd hde]
      · right
        have hd : f.dic = "" ∨ e.dicErr = none := by
          by_cases h1 : f.dic = ""
          · exact Or.inl h1
          · right
            cases h2 : e.dicErr with
            | none => rfl
            | some err => exact absurd ⟨h1, err, h2⟩ hdic
        cases hh : e.headerErr with
        | some err =>
          refine Or.inl ⟨rfl, rfl, hd, err, rfl, ?_⟩
          have h1 : (newDefaultRipper f d e).2.2 = some err := by
            rw [newDefaultRipper_header_error f d hn hd hh]
          rw [AutoRun_setup_error hcf h1, newDefaultRipper_header_error f d hn hd hh]
        | none =>
          refine Or.inr ⟨rfl, rfl, hd, rfl, ?_⟩
          rw [AutoRun_setup_ok hcf (by rw [newDefaultRipper_ok f d hn hd hh]),
            newDefaultRipper_ok f d hn hd hh]


/-- The four ways through `newDefaultRipper`, with what it returns on each. -/
theorem newDefaultRipper_cases (f : Flags) (d : Defaults) (e : Env) :
    (∃ err, e.newErr = some err ∧
      newDefaultRipper f d e = ([constructorCall f], none, some err)) ∨
    (e.newErr = none ∧ f.dic ≠ "" ∧ ∃ err, e.dicErr = some err ∧
      newDefaultRipper f d e =
        (constructorCall f :: quoteCalls f ++ dictionaryCalls f ++ [Call.Close],
          none, some err)) ∨
    (e.newErr = none ∧ (f.dic = "" ∨ e.dicErr = none) ∧ ∃ err, e.headerErr = some err ∧
      newDefaultRipper f d e =
        (constructorCall f :: quoteCalls f ++ dictionaryCalls f ++ registrationCalls d ++
          [headerCall f, Call.Close], none, some err)) ∨
    (e.newErr = none ∧ (f.dic = "" ∨ e.dicErr = none) ∧ e.headerErr = none ∧
      newDefaultRipper f d e =
        (constructorCall f :: quoteCalls f ++ dictionaryCalls f ++ registrationCalls d ++
          [headerCall f], some (setOutputOptions f e.newRipper), none)) := by
  cases hn : e.newErr with
  | some err => exact Or.inl ⟨err, rfl, newDefaultRipper_new_error f d hn⟩
  | none =>
    right
    by_cases hdic : f.dic ≠ "" ∧ ∃ err, e.dicErr = some err
    · obtain ⟨hd, err, hde⟩ := hdic
      exact Or.inl ⟨rfl, hd, err, hde, newDefaultRipper_dic_error f d hn hd hde⟩
    · right
      have hd : f.dic = "" ∨ e.dicErr = none := by
        by_cases h1 : f.dic = ""
        · exact Or.inl h1
        · right
          cases h2 : e.dicErr with
          | none => rfl
          | some err => exact absurd ⟨h1, err, h2⟩ hdic
      cases hh : e.headerErr with
      | some err =>
        exact Or.inl ⟨rfl, hd, err, rfl, newDefaultRipper_header_error f d hn hd hh⟩
      | none => exact Or.inr ⟨rfl, hd, rfl, newDefaultRipper_ok f d hn hd hh⟩

theorem constructorCall_isConstructor (f : Flags) :
    (constructorCall f).isConstructor = true := by
  unfold constructorCall; split <;> rfl

theorem headerCall_isHeaderWrite (f : Flags) : (headerCall f).isHeaderWrite = true := by
  unfold headerCall; split <;> rfl

theorem mem_quoteCalls {f : Flags} {c : Call} (h : c ∈ quoteCalls f) :
    c.isSetQuoteColumns = true := by
  unfold quoteCalls at h
  split at h
  · simp only [List.mem_singleton] at h; subst h; rfl
  · cases h

theorem mem_dictionaryCalls {f : Flags} {c : Call} (h : c ∈ dictionaryCalls f) :
    c.isSetDictionary = true := by
  unfold dictionaryCalls at h
  split at h
  · simp only [List.mem_singleton] at h; subst h; rfl
  · cases h

theorem mem_registrationCalls {d : Defaults} {c : Call} (h : c ∈ registrationCalls d) :
    c.isRegistration = true := by
  unfold registrationCalls at h
  simp only [List.mem_append, List.mem_map] at h
  rcases h with (⟨p, -, rfl⟩ | ⟨p, -, rfl⟩) | ⟨p, -, rfl⟩ <;> rfl

theorem mem_Run {e : Env} {c : Call} (h : c ∈ Run e) :
    c = Call.GoMonitor ∨ c = Call.ReadAndWriteLines ∨ ∃ line, c = Call.Println line := by
  unfold Run at h
  cases he : e.runErr <;> simp [he] at h <;> rcases h with h | h | h | h <;> simp [h]

/-- The calls `newDefaultRipper` makes before the header call are the
constructor, `SetQuoteColumns`, `SetDictionary` and the registrations. -/
theorem mem_setup {f : Flags} {d : Defaults} {c : Call}
    (h : c ∈ constructorCall f :: quoteCalls f ++ dictionaryCalls f ++ registrationCalls d) :
    c.isConstructor = true ∨ c.isSetQuoteColumns = true ∨ c.isSetDictionary = true ∨
      c.isRegistration = true := by
  simp only [List.mem_append, List.mem_cons] at h
  rcases h with ((h | h) | h) | h
  · subst h; exact Or.inl (constructorCall_isConstructor f)
  · exact Or.inr (Or.inl (mem_quoteCalls h))
  · exact Or.inr (Or.inr (Or.inl (mem_dictionaryCalls h)))
  · exact Or.inr (Or.inr (Or.inr (mem_registrationCalls h)))

theorem count_setup (f : Flags) (d : Defaults) (c : Call)
    (h1 : c.isConstructor = false) (h2 : c.isSetQuoteColumns = false)
    (h3 : c.isSetDictionary = false) (h4 : c.isRegistration = false) :
    (constructorCall f :: quoteCalls f ++ dictionaryCalls f ++ registrationCalls d).count c
      = 0 := by
  rw [List.count_eq_zero]
  intro hm
  rcases mem_setup hm with h | h | h | h
  · rw [h1] at h; cases h
  · rw [h2] at h; cases h
  · rw [h3] at h; cases h
  · rw [h4] at h; cases h

theorem count_partial_setup (f : Flags) (c : Call)
    (h1 : c.isConstructor = false) (h2 : c.isSetQuoteColumns = false)
    (h3 : c.isSetDictionary = false) :
    (constructorCall f :: quoteCalls f ++ dictionaryCalls f).count c = 0 := by
  rw [List.count_eq_zero]
  intro hm
  simp only [List.mem_append, List.mem_cons] at hm
  rcases hm with (h | h) | h
  · subst h; rw [constructorCall_isConstructor] at h1; cases h1
  · rw [mem_quoteCalls h] at h2; cases h2
  · rw [mem_dictionaryCalls h] at h3; cases h3

theorem count_Run (e : Env) (c : Call) (h1 : c ≠ Call.GoMonitor)
    (h2 : c ≠ Call.ReadAndWriteLines) (h3 : ∀ line, c ≠ Call.Println line) :
    (Run e).count c = 0 := by
  rw [List.count_eq_zero]
  intro hm
  rcases mem_Run hm with h | h | ⟨line, h⟩
  · exact h1 h
  · exact h2 h
  · exact h3 line h


/-- C8: for flag values accepted by `checkFlags`, `newDefaultRipper` builds the
`Ripper` with one constructor call, its first call: the read-only
`NewWithReaderFromFile(input, column)` exactly when `output` is empty, and then
`show` or `debug` is set; otherwise `NewFromFiles(input, output, column)` with
a non-empty `output`.  In both cases `input` and `column` are non-empty. -/
theorem newDefaultRipper_selects_sink (f : Flags) (d : Defaults) (e : Env)
    (h : checkFlags f = none) :
    f.input ≠ "" ∧ f.column ≠ "" ∧
    ((newDefaultRipper f d e).1.head? =
        some (Call.NewWithReaderFromFile f.input f.column) ↔ f.output = "") ∧
    (f.output = "" → f.show_ = true ∨ f.debug = true) ∧
    (f.output ≠ "" →
      (newDefaultRipper f d e).1.head? =
        some (Call.NewFromFiles f.input f.output f.column)) ∧
    (newDefaultRipper f d e).1.filter Call.isConstructor =
      (newDefaultRipper f d e).1.take 1 := by
  obtain ⟨hi, hc, hsd⟩ := checkFlags_none h
  have hhead : (newDefaultRipper f d e).1.head? = some (constructorCall f) := by
    rcases newDefaultRipper_cases f d e with ⟨err, -, hn⟩ | ⟨-, -, err, -, hn⟩ |
      ⟨-, -, err, -, hn⟩ | ⟨-, -, -, hn⟩ <;> rw [hn] <;> simp
  have hq : (quoteCalls f).filter Call.isConstructor = [] := by
    unfold quoteCalls; split <;> rfl
  have hdc : (dictionaryCalls f).filter Call.isConstructor = [] := by
    unfold dictionaryCalls; split <;> rfl
  have hreg : (registrationCalls d).filter Call.isConstructor = [] := by
    rw [List.filter_eq_nil_iff]
    intro c hc1
    rw [Bool.not_eq_true]
    have := mem_registrationCalls hc1
    cases c <;> first | rfl | cases this
  have hhd : (headerCall f).isConstructor = false := by
    unfold headerCall; split <;> rfl
  have hclose : Call.Close.isConstructor = false := rfl
  refine ⟨hi, hc, ?_, hsd, ?_, ?_⟩
  · rw [hhead]
    unfold constructorCall
    by_cases ho : f.output = "" <;> simp [ho]
  · intro ho
    rw [hhead]
    unfold constructorCall
    simp [ho]
  · rcases newDefaultRipper_cases f d e with ⟨err, -, hn⟩ | ⟨-, -, err, -, hn⟩ |
      ⟨-, -, err, -, hn⟩ | ⟨-, -, -, hn⟩ <;> rw [hn] <;>
      simp [List.filter_cons, List.filter_append, constructorCall_isConstructor, hq, hdc,
        hreg, hhd, hclose]

/-- C8 at the flags `-input in.csv -column text -show`: the read-only
constructor. -/
theorem newDefaultRipper_selects_sink_witness :
    checkFlags { input := "in.csv", column := "text", show_ := true } = none ∧
    ((newDefaultRipper { input := "in.csv", column := "text", show_ := true } {} {}).1.head? =
        some (Call.NewWithReaderFromFile "in.csv" "text") ↔ ("" : String) = "") :=
  have h : checkFlags { input := "in.csv", column := "text", show_ := true } = none := by
    decide
  ⟨h, (newDefaultRipper_selects_sink
    { input := "in.csv", column := "text", show_ := true } {} {} h).2.2.1⟩

/-- C4: `AutoRun` calls `Close` exactly once when the flags are accepted and
the constructor returned a `Ripper`, and never otherwise.  `newDefaultRipper`
returns an error exactly when the constructor, `SetDictionary` (for a non-empty
`dic`) or the header write failed; it then returns a nil `Ripper`, has called
`Close` itself once unless it was the constructor that failed, and `AutoRun`
only prints the error after it.  When it returns no error it has not called
`Close`, neither does `Run`, and the deferred `Close` is the last call of
`AutoRun`, whether `ReadAndWriteLines` failed or not. -/
theorem AutoRun_closes_once (f : Flags) (d : Defaults) (e : Env) :
    (AutoRun f d e).count Call.Close =
      (if checkFlags f = none ∧ e.newErr = none then 1 else 0) ∧
    ((newDefaultRipper f d e).2.2.isSome = true ↔
      (e.newErr.isSome = true ∨ (f.dic ≠ "" ∧ e.dicErr.isSome = true) ∨
        e.headerErr.isSome = true)) ∧
    (∀ err, (newDefaultRipper f d e).2.2 = some err →
      (newDefaultRipper f d e).2.1 = none ∧
      (newDefaultRipper f d e).1.count Call.Close = (if e.newErr = none then 1 else 0) ∧
      (checkFlags f = none →
        AutoRun f d e = (newDefaultRipper f d e).1 ++ [Call.Println err])) ∧
    ((newDefaultRipper f d e).2.2 = none →
      (newDefaultRipper f d e).2.1.isSome = true ∧
      (newDefaultRipper f d e).1.count Call.Close = 0 ∧
      (Run e).count Call.Close = 0 ∧
      (checkFlags f = none →
        AutoRun f d e = (newDefaultRipper f d e).1 ++ Run e ++ [Call.Close])) := by
  have hsetup := count_setup f d Call.Close rfl rfl rfl rfl
  have hpart := count_partial_setup f Call.Close rfl rfl rfl
  have hctor : (constructorCall f == Call.Close) = false := by
    unfold constructorCall; split <;> rfl
  have hhd : (headerCall f == Call.Close) = false := by
    unfold headerCall; split <;> rfl
  have hrun : (Run e).count Call.Close = 0 :=
    count_Run e Call.Close (by simp) (by simp) (by simp)
  refine ⟨?_, ?_, ?_, ?_⟩
  · rcases AutoRun_cases f d e with ⟨err, hcf, ha⟩ | ⟨hcf, err, hn, ha⟩ |
      ⟨hcf, hn, -, err, -, ha⟩ | ⟨hcf, hn, -, err, -, ha⟩ | ⟨hcf, hn, -, -, ha⟩
    · rw [ha]; simp [hcf, List.count_cons]
    · rw [ha]; simp [hcf, hn, List.count_cons, hctor]
    · rw [ha, List.count_append, List.count_append, hpart]
      simp [hcf, hn, List.count_cons]
    · rw [ha, List.count_append, List.count_append, hsetup]
      simp [hcf, hn, List.count_cons, hhd]
    · rw [ha, List.count_append, List.count_append, List.count_append, hsetup, hrun]
      simp [hcf, hn, List.count_cons, hhd]
  · rcases newDefaultRipper_cases f d e with ⟨err, hne, hn⟩ | ⟨hne, hd, err, hde, hn⟩ |
      ⟨hne, hd, err, hh, hn⟩ | ⟨hne, hd, hh, hn⟩ <;> rw [hn]
    · simp [hne]
    · simp [hne, hd, hde]
    · simp [hne, hh]
    · rcases hd with hd | hd <;> simp [hne, hd, hh]
  · intro err herr
    refine ⟨?_, ?_, fun hcf => AutoRun_setup_error hcf herr⟩
    · rcases newDefaultRipper_cases f d e with ⟨err, hne, hn⟩ | ⟨hne, hd, err, hde, hn⟩ |
        ⟨hne, hd, err, hh, hn⟩ | ⟨hne, hd, hh, hn⟩ <;> simp [hn] at herr ⊢
    · rcases newDefaultRipper_cases f d e with ⟨err, hne, hn⟩ | ⟨hne, hd, err, hde, hn⟩ |
        ⟨hne, hd, err, hh, hn⟩ | ⟨hne, hd, hh, hn⟩
      · rw [hn]
        simp [hne, List.count_cons, hctor]
      · rw [hn]
        simp only [List.count_append, hpart]
        simp [hne, List.count_cons]
      · rw [hn]
        simp only [List.count_append, hsetup]
        simp [hne, List.count_cons, hhd]
      · simp [hn] at herr
  · intro hnone
    refine ⟨?_, ?_, hrun, fun hcf => AutoRun_setup_ok hcf hnone⟩
    · rcases newDefaultRipper_cases f d e with ⟨err, hne, hn⟩ | ⟨hne, hd, err, hde, hn⟩ |
        ⟨hne, hd, err, hh, hn⟩ | ⟨hne, hd, hh, hn⟩ <;> simp [hn] at hnone ⊢
    · rcases newDefaultRipper_cases f d e with ⟨err, hne, hn⟩ | ⟨hne, hd, err, hde, hn⟩ |
        ⟨hne, hd, err, hh, hn⟩ | ⟨hne, hd, hh, hn⟩
      · simp [hn] at hnone
      · simp [hn] at hnone
      · simp [hn] at hnone
      · rw [hn]
        simp only [List.count_append, hsetup]
        simp [List.count_cons, hhd]


theorem setup_not_header {f : Flags} {d : Defaults} {c : Call}
    (h : c ∈ constructorCall f :: quoteCalls f ++ dictionaryCalls f ++ registrationCalls d) :
    c.isHeaderWrite = false ∧ c ≠ Call.ReadAndWriteLines := by
  rcases mem_setup h with h1 | h1 | h1 | h1 <;> cases c <;>
    first | (exfalso; revert h1; decide) | (refine ⟨rfl, ?_⟩; simp)

theorem Run_not_config {e : Env} {c : Call} (h : c ∈ Run e ++ [Call.Close]) :
    c.isRegistration = false ∧ c.isSetQuoteColumns = false ∧ c.isHeaderWrite = false := by
  rw [List.mem_append, List.mem_singleton] at h
  rcases h with h | h
  · rcases mem_Run h with h1 | h1 | ⟨line, h1⟩ <;> subst h1 <;> exact ⟨rfl, rfl, rfl⟩
  · subst h; exact ⟨rfl, rfl, rfl⟩

/-- C6: on every path of `AutoRun` on which the set-up succeeds, the header is
written exactly once, by `WriteHeaderWithReplace` when `replace` is set and by
`WriteHeader` when it is not, as the last call of `newDefaultRipper` and before
`Run` starts; `ReadAndWriteLines` is called only on those paths, so only after
the header call returned no error; when the header write fails it is never
called. -/
theorem header_written_once_before_processing (f : Flags) (d : Defaults) (e : Env) :
    (checkFlags f = none → e.newErr = none → (f.dic = "" ∨ e.dicErr = none) →
      e.headerErr = none →
        (AutoRun f d e).count Call.WriteHeaderWithReplace =
          (if f.replace = true then 1 else 0) ∧
        (AutoRun f d e).count Call.WriteHeader = (if f.replace = true then 0 else 1) ∧
        ∃ setup : List Call,
          (newDefaultRipper f d e).1 = setup ++ [headerCall f] ∧
          AutoRun f d e = setup ++ headerCall f :: (Run e ++ [Call.Close]) ∧
          (∀ c ∈ setup, c.isHeaderWrite = false ∧ c ≠ Call.ReadAndWriteLines) ∧
          (∀ c ∈ Run e ++ [Call.Close], c.isHeaderWrite = false) ∧
          Call.ReadAndWriteLines ∈ Run e) ∧
    (headerCall f = Call.WriteHeaderWithReplace ↔ f.replace = true) ∧
    (headerCall f = Call.WriteHeader ↔ f.replace = false) ∧
    (Call.ReadAndWriteLines ∈ AutoRun f d e ↔
      (checkFlags f = none ∧ e.newErr = none ∧ (f.dic = "" ∨ e.dicErr = none) ∧
        e.headerErr = none)) ∧
    (e.headerErr.isSome = true → Call.ReadAndWriteLines ∉ AutoRun f d e) := by
  have hiff : Call.ReadAndWriteLines ∈ AutoRun f d e ↔
      (checkFlags f = none ∧ e.newErr = none ∧ (f.dic = "" ∨ e.dicErr = none) ∧
        e.headerErr = none) := by
    have hsetup : Call.ReadAndWriteLines ∉
        constructorCall f :: quoteCalls f ++ dictionaryCalls f ++ registrationCalls d :=
      fun hm => (setup_not_header hm).2 rfl
    have hpart : Call.ReadAndWriteLines ∉
        constructorCall f :: quoteCalls f ++ dictionaryCalls f := by
      intro hm
      exact hsetup (List.mem_append_left _ hm)
    have hctor : Call.ReadAndWriteLines ≠ constructorCall f := by
      intro hm
      exact hpart (by rw [hm]; simp)
    have hhd : Call.ReadAndWriteLines ≠ headerCall f := by
      unfold headerCall; split <;> simp
    rcases AutoRun_cases f d e with ⟨err, hcf, ha⟩ | ⟨hcf, err, hn, ha⟩ |
      ⟨hcf, hn, hd, err, hde, ha⟩ | ⟨hcf, hn, hd, err, hh, ha⟩ | ⟨hcf, hn, hd, hh, ha⟩
    · rw [ha]; simp [hcf]
    · rw [ha]; simp [hn, hctor]
    · rw [ha]
      simp only [List.mem_append, hpart, false_or]
      simp [hd, hde]
    · rw [ha]
      simp only [List.mem_append, hsetup, false_or]
      simp [hh, hhd]
    · rw [ha]
      refine ⟨fun _ => ⟨hcf, hn, hd, hh⟩, fun _ => ?_⟩
      simp [Run]
  refine ⟨?_, ?_, ?_, hiff, ?_⟩
  · intro hcf hn hd hh
    have hnd := newDefaultRipper_ok f d hn hd hh
    have ha := AutoRun_setup_ok hcf (by rw [hnd])
    rw [hnd] at ha
    dsimp only at ha
    have hrun1 : (Run e).count Call.WriteHeaderWithReplace = 0 :=
      count_Run e _ (by simp) (by simp) (by simp)
    have hrun2 : (Run e).count Call.WriteHeader = 0 :=
      count_Run e _ (by simp) (by simp) (by simp)
    refine ⟨?_, ?_, constructorCall f :: quoteCalls f ++ dictionaryCalls f ++
      registrationCalls d, by rw [hnd], ?_, ?_, ?_, ?_⟩
    · rw [ha]
      simp only [List.count_append, hrun1,
        count_setup f d Call.WriteHeaderWithReplace rfl rfl rfl rfl]
      unfold headerCall
      cases f.replace <;> simp [List.count_cons]
    · rw [ha]
      simp only [List.count_append, hrun2,
        count_setup f d Call.WriteHeader rfl rfl rfl rfl]
      unfold headerCall
      cases f.replace <;> simp [List.count_cons]
    · rw [ha]; simp
    · intro c hc
      exact setup_not_header hc
    · intro c hc
      exact (Run_not_config hc).2.2
    · simp [Run]
  · unfold headerCall
    cases f.replace <;> simp
  · unfold headerCall
    cases f.replace <;> simp
  · intro hsome hmem
    have := (hiff.mp hmem).2.2.2
    rw [this] at hsome
    cases hsome


theorem filter_isRegistration_setup (f : Flags) (d : Defaults) :
    (constructorCall f :: quoteCalls f ++ dictionaryCalls f ++ registrationCalls d).filter
      Call.isRegistration = registrationCalls d := by
  have hc : (constructorCall f).isRegistration = false := by
    unfold constructorCall; split <;> rfl
  have hq : (quoteCalls f).filter Call.isRegistration = [] := by
    unfold quoteCalls; split <;> rfl
  have hd : (dictionaryCalls f).filter Call.isRegistration = [] := by
    unfold dictionaryCalls; split <;> rfl
  have hr : (registrationCalls d).filter Call.isRegistration = registrationCalls d :=
    List.filter_eq_self.mpr (fun c hc1 => mem_registrationCalls hc1)
  simp [List.filter_cons, List.filter_append, hc, hq, hd, hr]

theorem filter_isRegistration_partial (f : Flags) :
    (constructorCall f :: quoteCalls f ++ dictionaryCalls f).filter
      Call.isRegistration = [] := by
  have hc : (constructorCall f).isRegistration = false := by
    unfold constructorCall; split <;> rfl
  have hq : (quoteCalls f).filter Call.isRegistration = [] := by
    unfold quoteCalls; split <;> rfl
  have hd : (dictionaryCalls f).filter Call.isRegistration = [] := by
    unfold dictionaryCalls; split <;> rfl
  simp [List.filter_cons, List.filter_append, hc, hq, hd]

/-- C7, a run on which the claim fails: with a dictionary path given and
`SetDictionary` failing, `newDefaultRipper` returns before the three loops, so
it makes no registration call although `DefaultPreFilters` holds one filter. -/
theorem registration_skipped_when_dictionary_fails :
    checkFlags { input := "in.csv", output := "out.csv", column := "text",
                 dic := "user.dic" } = none ∧
    (newDefaultRipper
        { input := "in.csv", output := "out.csv", column := "text", dic := "user.dic" }
        { DefaultPreFilters := [{ addr := 1 }] }
        { dicErr := some "cannot open dictionary" }).1.filter Call.isRegistration = [] ∧
    (newDefaultRipper
        { input := "in.csv", output := "out.csv", column := "text", dic := "user.dic" }
        { DefaultPreFilters := [{ addr := 1 }] }
        { dicErr := some "cannot open dictionary" }).1.filter Call.isRegistration ≠
      ([{ addr := 1 }] : List PreFilter).map Call.AddPreFilter ++
        ([] : List Plugin).map Call.AddPlugin ++
        ([] : List PostFilter).map Call.AddPostFilter := by
  refine ⟨by decide, by decide, by decide⟩

/-- C7, amended: whenever `newDefaultRipper` gets past the constructor and
`SetDictionary`, the registration calls it makes are exactly `AddPreFilter` for
each element of `DefaultPreFilters` in order, then `AddPlugin` for each element
of `DefaultPlugins`, then `AddPostFilter` for each element of
`DefaultPostFilters`; they and the `SetQuoteColumns` call all come before the
header call, and nothing after it (the rest of `newDefaultRipper`, `Run`,
the deferred `Close`, and the calls of `Run` in any schedule) registers a
filter or sets the quote columns.  When the constructor or `SetDictionary` fails,
`newDefaultRipper` registers nothing. -/
theorem registration_in_list_order (f : Flags) (d : Defaults) (e : Env) :
    (e.newErr = none → (f.dic = "" ∨ e.dicErr = none) →
      (newDefaultRipper f d e).1.filter Call.isRegistration =
        d.DefaultPreFilters.map Call.AddPreFilter ++
        d.DefaultPlugins.map Call.AddPlugin ++
        d.DefaultPostFilters.map Call.AddPostFilter ∧
      ∃ before after : List Call,
        (newDefaultRipper f d e).1 = before ++ headerCall f :: after ∧
        before.filter Call.isRegistration = (newDefaultRipper f d e).1.filter
          Call.isRegistration ∧
        before.filter Call.isSetQuoteColumns = quoteCalls f ∧
        (∀ c ∈ before, c.isHeaderWrite = false ∧ c ≠ Call.ReadAndWriteLines) ∧
        (∀ c ∈ after, c.isRegistration = false ∧ c.isSetQuoteColumns = false)) ∧
    (¬ (e.newErr = none ∧ (f.dic = "" ∨ e.dicErr = none)) →
      (newDefaultRipper f d e).1.filter Call.isRegistration = []) ∧
    (checkFlags f = none →
      ∃ rest : List Call, AutoRun f d e = (newDefaultRipper f d e).1 ++ rest ∧
        (rest = Run e ++ [Call.Close] ∨ ∃ err, rest = [Call.Println err]) ∧
        ∀ c ∈ rest, c.isRegistration = false ∧ c.isSetQuoteColumns = false) ∧
    (∀ c ∈ Run e, c.isRegistration = false ∧ c.isSetQuoteColumns = false) ∧
    (∀ (progress : Int) (events : List RunEvent),
      ∀ c ∈ (RunState.exec progress e events).calls,
        c.isRegistration = false ∧ c.isSetQuoteColumns = false) := by
  have hrun : ∀ c ∈ Run e, c.isRegistration = false ∧ c.isSetQuoteColumns = false := by
    intro c hc
    have := Run_not_config (List.mem_append_left [Call.Close] hc)
    exact ⟨this.1, this.2.1⟩
  have hquote : (constructorCall f :: quoteCalls f ++ dictionaryCalls f ++
      registrationCalls d).filter Call.isSetQuoteColumns = quoteCalls f := by
    have hc : (constructorCall f).isSetQuoteColumns = false := by
      unfold constructorCall; split <;> rfl
    have hq : (quoteCalls f).filter Call.isSetQuoteColumns = quoteCalls f :=
      List.filter_eq_self.mpr (fun c hc1 => mem_quoteCalls hc1)
    have hd : (dictionaryCalls f).filter Call.isSetQuoteColumns = [] := by
      unfold dictionaryCalls; split <;> rfl
    have hr : (registrationCalls d).filter Call.isSetQuoteColumns = [] := by
      rw [List.filter_eq_nil_iff]
      intro c hc1
      unfold registrationCalls at hc1
      simp only [List.mem_append, List.mem_map] at hc1
      rcases hc1 with (⟨p, -, rfl⟩ | ⟨p, -, rfl⟩) | ⟨p, -, rfl⟩ <;>
        simp [Call.isSetQuoteColumns]
    simp [List.filter_cons, List.filter_append, hc, hq, hd, hr]
  have hhd : (headerCall f).isRegistration = false := by
    unfold headerCall; split <;> rfl
  have hcl : Call.Close.isRegistration = false := rfl
  have key : ∀ tail : List Call,
      (constructorCall f :: quoteCalls f ++ dictionaryCalls f ++ registrationCalls d ++
        tail).filter Call.isRegistration =
      registrationCalls d ++ tail.filter Call.isRegistration := by
    intro tail
    rw [List.filter_append
      (constructorCall f :: quoteCalls f ++ dictionaryCalls f ++ registrationCalls d) tail,
      filter_isRegistration_setup]
  refine ⟨?_, ?_, ?_, hrun, ?_⟩
  · intro hn hd
    cases hh : e.headerErr with
    | some err =>
      rw [newDefaultRipper_header_error f d hn hd hh]
      dsimp only
      refine ⟨?_, constructorCall f :: quoteCalls f ++ dictionaryCalls f ++
        registrationCalls d, [Call.Close], by simp, ?_, hquote,
        fun c hc => setup_not_header hc, ?_⟩
      · rw [key]
        simp [List.filter_cons, hhd, hcl, registrationCalls]
      · rw [key, filter_isRegistration_setup]
        simp [List.filter_cons, hhd, hcl]
      · intro c hc
        simp only [List.mem_singleton] at hc
        subst hc
        exact ⟨rfl, rfl⟩
    | none =>
      rw [newDefaultRipper_ok f d hn hd hh]
      dsimp only
      refine ⟨?_, constructorCall f :: quoteCalls f ++ dictionaryCalls f ++
        registrationCalls d, [], by simp, ?_, hquote,
        fun c hc => setup_not_header hc, ?_⟩
      · rw [key]
        simp [List.filter_cons, hhd, registrationCalls]
      · rw [key, filter_isRegistration_setup]
        simp [List.filter_cons, hhd]
      · intro c hc
        cases hc
  · intro hnot
    rcases newDefaultRipper_cases f d e with ⟨err, hne, hn⟩ | ⟨hne, hd, err, hde, hn⟩ |
      ⟨hne, hd, err, hh, hn⟩ | ⟨hne, hd, hh, hn⟩
    · rw [hn]
      have hc : (constructorCall f).isRegistration = false := by
        unfold constructorCall; split <;> rfl
      simp [List.filter_cons, hc]
    · rw [hn]
      dsimp only
      rw [List.filter_append (constructorCall f :: quoteCalls f ++ dictionaryCalls f)
        [Call.Close], filter_isRegistration_partial]
      simp [List.filter_cons, hcl]
    · exact absurd ⟨hne, hd⟩ hnot
    · exact absurd ⟨hne, hd⟩ hnot
  · intro hcf
    cases herr : (newDefaultRipper f d e).2.2 with
    | some err =>
      refine ⟨[Call.Println err], AutoRun_setup_error hcf herr, Or.inr ⟨err, rfl⟩, ?_⟩
      intro c hc
      simp only [List.mem_singleton] at hc
      subst hc
      exact ⟨rfl, rfl⟩
    | none =>
      refine ⟨Run e ++ [Call.Close], ?_, Or.inl rfl, ?_⟩
      · rw [AutoRun_setup_ok hcf herr, List.append_assoc]
      · intro c hc
        have := Run_not_config hc
        exact ⟨this.1, this.2.1⟩
  · intro progress events c hc
    rw [(exec_inv progress e events).2.2.2.2] at hc
    exact hrun c (List.mem_of_mem_take hc)


/-- C6 at the flags `-input in.csv -output out.csv -column text -replace` with
every call succeeding: one `WriteHeaderWithReplace`, no `WriteHeader`, and the
header call before `Run`. -/
theorem header_written_once_before_processing_witness :
    (AutoRun { input := "in.csv", output := "out.csv", column := "text", replace := true }
        {} {}).count Call.WriteHeaderWithReplace = 1 ∧
    (AutoRun { input := "in.csv", output := "out.csv", column := "text", replace := true }
        {} {}).count Call.WriteHeader = 0 ∧
    Call.ReadAndWriteLines ∈
      AutoRun { input := "in.csv", output := "out.csv", column := "text", replace := true }
        {} {} :=
  have h := header_written_once_before_processing
    { input := "in.csv", output := "out.csv", column := "text", replace := true } {} {}
  have h1 := h.1 (by decide) rfl (Or.inl rfl) rfl
  ⟨h1.1, h1.2.1, h.2.2.2.1.mpr ⟨by decide, rfl, Or.inl rfl, rfl⟩⟩

/-- C7 as amended, at a run that reaches the loops: two pre-filters, one
plugin and one post-filter are registered in that order. -/
theorem registration_in_list_order_witness :
    (newDefaultRipper { input := "in.csv", output := "out.csv", column := "text" }
        { DefaultPlugins := [{ addr := 3 }],
          DefaultPreFilters := [{ addr := 1 }, { addr := 2 }],
          DefaultPostFilters := [{ addr := 4 }] } {}).1.filter Call.isRegistration =
      [Call.AddPreFilter { addr := 1 }, Call.AddPreFilter { addr := 2 },
       Call.AddPlugin { addr := 3 }, Call.AddPostFilter { addr := 4 }] :=
  (registration_in_list_order { input := "in.csv", output := "out.csv", column := "text" }
    { DefaultPlugins := [{ addr := 3 }],
      DefaultPreFilters := [{ addr := 1 }, { addr := 2 }],
      DefaultPostFilters := [{ addr := 4 }] } {}).1 rfl (Or.inl rfl) |>.1

end ripper
